import Mathlib

/-!
Shallow embedding of the regami backend core (matching engine, match
lifecycle state machine, messaging, websocket fan-out registry), translated
from `src/backend/app/routers/availability.py`, `messages.py`,
`websocket.py` and `src/backend/app/models.py`.

Conventions of the embedding:
* timestamps (`datetime`) become `Nat`; only their order is used by the code;
* user ids are `String` (`User.id` is a random url-safe string in the source);
* offer / request / match / message primary keys become `Nat`, drawn from
  explicit `next…Id` counters standing for SQL autoincrement;
* an HTTP exception aborts the enclosing transaction (the session is closed
  uncommitted in `get_db`), so every fallible operation is
  `Except HError …` returning the *unchanged* meaning on error;
* e-mail and push (fcm) side effects go to external best-effort sinks and
  carry no state in the store; the `Notification` rows that the handlers
  insert via `db.add(notif)` are kept, since they are store rows;
* `created_at` / `updated_at` bookkeeping columns are elided: no modelled
  operation reads them back.
-/

namespace Regami

abbrev UserId := String

/-- Timestamps: the code only ever compares them. -/
abbrev Ts := Nat

/-- `MatchStatus` from `models.py` (stored as a string column). -/
inductive MatchStatus where
  | pending
  | accepted
  | confirmed
  | rejected
deriving DecidableEq

/-- The HTTP error classes the routers raise: 404 not-found, 403
authorization-denied, 400 validation / invalid-transition, and the
server-error that an attribute access on a missing relationship row would
produce in Python. -/
inductive HError where
  | notFound
  | forbidden
  | badRequest
  | internal
deriving DecidableEq

structure AvailabilityOffer where
  id : Nat
  user_id : UserId
  start_at : Ts
  end_at : Ts
deriving DecidableEq

structure AvailabilityRequest where
  id : Nat
  user_id : UserId
  start_at : Ts
  end_at : Ts
deriving DecidableEq

/-- The `matches` table row (two-way confirmation flow). -/
structure Match where
  id : Nat
  offer_id : Nat
  request_id : Nat
  status : MatchStatus
  pending_user_id : Option UserId
deriving DecidableEq

/-- The `notifications` table row (user id plus message text). -/
structure Notification where
  user_id : UserId
  message : String
deriving DecidableEq

/-- The relational store as seen by the availability router. -/
structure DB where
  offers : List AvailabilityOffer
  requests : List AvailabilityRequest
  matchRows : List Match
  notifications : List Notification
  nextOfferId : Nat
  nextRequestId : Nat
  nextMatchId : Nat
deriving DecidableEq

def DB.empty : DB :=
  { offers := [], requests := [], matchRows := [], notifications := [],
    nextOfferId := 0, nextRequestId := 0, nextMatchId := 0 }

/-- `_create_match`: lock (re-fetch) both rows, abort 404 if either is gone,
return an existing non-terminal match for the pair idempotently, otherwise
insert a PENDING match whose pending user is the offer owner, and add the
notification row for the offer owner (the e-mail/push sinks are external). -/
def createMatch (db : DB) (offer : AvailabilityOffer) (request : AvailabilityRequest) :
    Except HError (DB × Match) :=
  match db.offers.find? (fun o => o.id == offer.id),
        db.requests.find? (fun r => r.id == request.id) with
  | some lockedOffer, some _ =>
    match db.matchRows.find? (fun m =>
        m.offer_id == offer.id && m.request_id == request.id &&
        (m.status == MatchStatus.pending || m.status == MatchStatus.accepted)) with
    | some existing => .ok (db, existing)
    | none =>
      let m : Match :=
        { id := db.nextMatchId, offer_id := offer.id, request_id := request.id,
          status := .pending, pending_user_id := some offer.user_id }
      let notif : Notification :=
        { user_id := lockedOffer.user_id, message := "Regami - Nouvelle demande de garde" }
      .ok ({ db with
             matchRows := db.matchRows ++ [m],
             notifications := db.notifications ++ [notif],
             nextMatchId := db.nextMatchId + 1 }, m)
  | _, _ => .error .notFound

/-- The candidate query of `_match_offer`: requests whose window is contained
in the offer window, owned by a different user. -/
def compatibleRequests (db : DB) (offer : AvailabilityOffer) : List AvailabilityRequest :=
  db.requests.filter (fun r =>
    decide (offer.start_at ≤ r.start_at) && decide (r.end_at ≤ offer.end_at) &&
    !(r.user_id == offer.user_id))

/-- The candidate query of `_match_request`: offers containing the request
window, owned by a different user. -/
def compatibleOffers (db : DB) (request : AvailabilityRequest) : List AvailabilityOffer :=
  db.offers.filter (fun o =>
    decide (o.start_at ≤ request.start_at) && decide (request.end_at ≤ o.end_at) &&
    !(o.user_id == request.user_id))

/-- The per-candidate loop of `_match_offer`: each candidate goes through
`createMatch`; an `HTTPException` on one candidate is swallowed and the loop
continues with the remaining candidates. -/
def matchOfferAux (offer : AvailabilityOffer) : DB → List AvailabilityRequest → DB × List Match
  | db, [] => (db, [])
  | db, r :: rest =>
    match createMatch db offer r with
    | .ok (db1, m) =>
      let p := matchOfferAux offer db1 rest
      (p.1, m :: p.2)
    | .error _ => matchOfferAux offer db rest

/-- The per-candidate loop of `_match_request`. -/
def matchRequestAux (request : AvailabilityRequest) : DB → List AvailabilityOffer → DB × List Match
  | db, [] => (db, [])
  | db, o :: rest =>
    match createMatch db o request with
    | .ok (db1, m) =>
      let p := matchRequestAux request db1 rest
      (p.1, m :: p.2)
    | .error _ => matchRequestAux request db rest

/-- `_match_offer`. -/
def matchOffer (db : DB) (offer : AvailabilityOffer) : DB × List Match :=
  matchOfferAux offer db (compatibleRequests db offer)

/-- `_match_request`. -/
def matchRequest (db : DB) (request : AvailabilityRequest) : DB × List Match :=
  matchRequestAux request db (compatibleOffers db request)

/-- `create_offer` (POST /offers): time-range validation, past-window check,
overlap check, insert, then run the matching engine. Returns the new offer id. -/
def createOffer (now : Ts) (db : DB) (userId : UserId) (startAt endAt : Ts) :
    Except HError (DB × Nat) :=
  if endAt ≤ startAt then .error .badRequest
  else if endAt ≤ now ∨ startAt ≤ now then .error .badRequest
  else if db.offers.any (fun o =>
      o.user_id == userId && decide (o.start_at < endAt) && decide (startAt < o.end_at)) then
    .error .badRequest
  else
    let offer : AvailabilityOffer :=
      { id := db.nextOfferId, user_id := userId, start_at := startAt, end_at := endAt }
    let db1 : DB := { db with offers := db.offers ++ [offer], nextOfferId := db.nextOfferId + 1 }
    .ok ((matchOffer db1 offer).1, offer.id)

/-- `create_request` (POST /requests). -/
def createRequest (now : Ts) (db : DB) (userId : UserId) (startAt endAt : Ts) :
    Except HError (DB × Nat) :=
  if endAt ≤ startAt then .error .badRequest
  else if endAt ≤ now ∨ startAt ≤ now then .error .badRequest
  else if db.requests.any (fun r =>
      r.user_id == userId && decide (r.start_at < endAt) && decide (startAt < r.end_at)) then
    .error .badRequest
  else
    let request : AvailabilityRequest :=
      { id := db.nextRequestId, user_id := userId, start_at := startAt, end_at := endAt }
    let db1 : DB :=
      { db with requests := db.requests ++ [request], nextRequestId := db.nextRequestId + 1 }
    .ok ((matchRequest db1 request).1, request.id)

/-- Replace the match row with the given id (the ORM mutates the row in place). -/
def updateMatchRow (db : DB) (m : Match) : DB :=
  { db with matchRows := db.matchRows.map (fun x => if x.id == m.id then m else x) }

/-- `accept_match` (POST /matches/id/accept): lock the row; 404 if missing;
403 unless the caller is the pending responder; 400 unless status is PENDING;
move to ACCEPTED with the requester as new pending responder, notify the
requester.  The handler dereferences `match.request.user_id` and
`match.offer.user`, so a dangling foreign key would raise in Python
(modelled as `internal`, the transaction left uncommitted). -/
def acceptMatch (db : DB) (matchId : Nat) (userId : UserId) : Except HError (DB × Match) :=
  match db.matchRows.find? (fun m => m.id == matchId) with
  | none => .error .notFound
  | some m =>
    if m.pending_user_id ≠ some userId then .error .forbidden
    else if m.status ≠ MatchStatus.pending then .error .badRequest
    else
      match db.requests.find? (fun r => r.id == m.request_id),
            db.offers.find? (fun o => o.id == m.offer_id) with
      | some req, some _ =>
        let m' : Match := { m with status := .accepted, pending_user_id := some req.user_id }
        let db1 := updateMatchRow db m'
        let notif : Notification :=
          { user_id := req.user_id, message := "Regami - Votre demande a été acceptée!" }
        .ok ({ db1 with notifications := db1.notifications ++ [notif] }, m')
      | _, _ => .error .internal

/-- `confirm_match` (POST /matches/id/confirm): 403 unless caller is the
pending responder; 400 unless status is ACCEPTED; move to CONFIRMED with no
pending responder, notify both parties. -/
def confirmMatch (db : DB) (matchId : Nat) (userId : UserId) : Except HError (DB × Match) :=
  match db.matchRows.find? (fun m => m.id == matchId) with
  | none => .error .notFound
  | some m =>
    if m.pending_user_id ≠ some userId then .error .forbidden
    else if m.status ≠ MatchStatus.accepted then .error .badRequest
    else
      match db.requests.find? (fun r => r.id == m.request_id),
            db.offers.find? (fun o => o.id == m.offer_id) with
      | some req, some off =>
        let m' : Match := { m with status := .confirmed, pending_user_id := none }
        let db1 := updateMatchRow db m'
        let n1 : Notification := { user_id := off.user_id, message := "Regami - Garde confirmée!" }
        let n2 : Notification := { user_id := req.user_id, message := "Regami - Garde confirmée!" }
        .ok ({ db1 with notifications := db1.notifications ++ [n1, n2] }, m')
      | _, _ => .error .internal

/-- `match.offer.user_id == current_user.id if match.offer else False`. -/
def isOfferOwner (db : DB) (m : Match) (userId : UserId) : Bool :=
  match db.offers.find? (fun o => o.id == m.offer_id) with
  | some o => o.user_id == userId
  | none => false

/-- `match.request.user_id == current_user.id if match.request else False`. -/
def isRequester (db : DB) (m : Match) (userId : UserId) : Bool :=
  match db.requests.find? (fun r => r.id == m.request_id) with
  | some r => r.user_id == userId
  | none => false

/-- `reject_match` (POST /matches/id/reject): 403 unless caller is the offer
owner or the requester; 400 unless status is PENDING or ACCEPTED; move to
REJECTED with no pending responder, notify the other party. -/
def rejectMatch (db : DB) (matchId : Nat) (userId : UserId) : Except HError (DB × Match) :=
  match db.matchRows.find? (fun m => m.id == matchId) with
  | none => .error .notFound
  | some m =>
    if ¬ (isOfferOwner db m userId = true ∨ isRequester db m userId = true) then
      .error .forbidden
    else if ¬ (m.status = MatchStatus.pending ∨ m.status = MatchStatus.accepted) then
      .error .badRequest
    else
      match (if isRequester db m userId then
               (db.offers.find? (fun o => o.id == m.offer_id)).map (fun o => o.user_id)
             else
               (db.requests.find? (fun r => r.id == m.request_id)).map (fun r => r.user_id)) with
      | none => .error .internal
      | some other =>
        let m' : Match := { m with status := .rejected, pending_user_id := none }
        let db1 := updateMatchRow db m'
        let notif : Notification :=
          { user_id := other, message := "Regami - Demande de garde annulée" }
        .ok ({ db1 with notifications := db1.notifications ++ [notif] }, m')

/-- All matches stored for a given (offer, request) pair. -/
def pairMatches (db : DB) (oid rid : Nat) : List Match :=
  db.matchRows.filter (fun m => m.offer_id == oid && m.request_id == rid)

/-- Well-formedness of the store: every stored id (and every foreign key held
by a match) lies below the corresponding autoincrement counter. -/
def DBWF (db : DB) : Prop :=
  (∀ o ∈ db.offers, o.id < db.nextOfferId) ∧
  (∀ r ∈ db.requests, r.id < db.nextRequestId) ∧
  (∀ m ∈ db.matchRows, m.offer_id < db.nextOfferId) ∧
  (∀ m ∈ db.matchRows, m.request_id < db.nextRequestId)

def isOk {ε α : Type} : Except ε α → Bool
  | .ok _ => true
  | .error _ => false

instance {ε α : Type} [DecidableEq ε] [DecidableEq α] : DecidableEq (Except ε α) := fun a b =>
  match a, b with
  | .ok x, .ok y =>
    if h : x = y then .isTrue (by rw [h]) else .isFalse (fun hh => h (Except.ok.inj hh))
  | .error x, .error y =>
    if h : x = y then .isTrue (by rw [h]) else .isFalse (fun hh => h (Except.error.inj hh))
  | .ok _, .error _ => .isFalse (fun hh => Except.noConfusion hh)
  | .error _, .ok _ => .isFalse (fun hh => Except.noConfusion hh)

/-! ## Websocket fan-out (`routers/websocket.py`) -/

/-- A live websocket connection (only its identity matters to the registry). -/
abbrev Conn := Nat

/-- `ConnectionManager.active_connections`: user id to the set of open
connections.  A Python `dict` has unique keys and a `set` has no duplicate
members; the list model keeps both as well-formedness side conditions. -/
abbrev Registry := List (UserId × List Conn)

/-- The connection set registered for a user (empty when no entry). -/
def connsOf (reg : Registry) (u : UserId) : List Conn :=
  match reg.find? (fun p => p.1 == u) with
  | some p => p.2
  | none => []

/-- `ConnectionManager.connect`: create the entry if absent, then add the
connection to the user's set. -/
def wsConnect (reg : Registry) (u : UserId) (c : Conn) : Registry :=
  match reg.find? (fun p => p.1 == u) with
  | none => reg ++ [(u, [c])]
  | some p =>
    if c ∈ p.2 then reg
    else reg.map (fun q => if q.1 == u then (q.1, q.2 ++ [c]) else q)

/-- `ConnectionManager.disconnect`: discard the connection from the user's
set; if the set becomes empty, delete the mapping entry entirely. -/
def wsDisconnect (reg : Registry) (u : UserId) (c : Conn) : Registry :=
  match reg.find? (fun p => p.1 == u) with
  | none => reg
  | some p =>
    let l := p.2.erase c
    if l = [] then reg.filter (fun q => !(q.1 == u))
    else reg.map (fun q => if q.1 == u then (q.1, l) else q)

/-- `ConnectionManager.send_personal_message`: attempt delivery on every
connection registered for the user; a connection whose send raises is
collected and disconnected after the loop, the others receive the event.
`fail` says which transports are broken. -/
def sendPersonalMessage {Ev : Type} (fail : Conn → Bool) (reg : Registry) (u : UserId)
    (ev : Ev) : Registry × List (Conn × Ev) :=
  match reg.find? (fun p => p.1 == u) with
  | none => (reg, [])
  | some p =>
    let delivered := (p.2.filter (fun c => !fail c)).map (fun c => (c, ev))
    let failed := p.2.filter (fun c => fail c)
    (failed.foldl (fun r c => wsDisconnect r u c) reg, delivered)

/-- Inbound frames after `json.loads`: a JSON value. -/
inductive Json where
  | null
  | bool (b : Bool)
  | num (n : Int)
  | str (s : String)
  | arr (elems : List Json)
  | obj (fields : List (String × Json))

/-- `message.get("type")` on a JSON object. -/
def jsonGet (fields : List (String × Json)) (k : String) : Option Json :=
  (fields.find? (fun p => p.1 == k)).map (fun p => p.2)

/-- `message.get("type") == "ping"`. -/
def isPing : Option Json → Bool
  | some (.str s) => s == "ping"
  | _ => false

/-- Outcome of one iteration of the `websocket_endpoint` receive loop. -/
inductive StepResult where
  | pong
  | noop
  | closeConn
deriving DecidableEq

/-- One iteration of the receive loop in `websocket_endpoint`, on an inbound
text frame.  The argument is the result of `json.loads`: `none` when the text
is not valid JSON (the call raises `ValueError`).  A parse failure, and
equally a JSON value that is not an object (`.get` raises `AttributeError`),
land in the `except Exception` branch, which disconnects this connection and
ends the loop.  A JSON object answers `pong` exactly when its `type` field is
the string `ping`, and is ignored otherwise. -/
def receiveStep : Option Json → StepResult
  | none => .closeConn
  | some (.obj fields) => if isPing (jsonGet fields "type") then .pong else .noop
  | some _ => .closeConn

/-- Registry mutations reachable in the source: `connect`, `disconnect`
(directly from the endpoint, or from the failure-cleanup inside
`send_personal_message`), and `send_personal_message` itself. -/
inductive WsOp where
  | connect (u : UserId) (c : Conn)
  | disconnect (u : UserId) (c : Conn)
  | send (u : UserId) (fail : Conn → Bool)

def stepOp (reg : Registry) : WsOp → Registry
  | .connect u c => wsConnect reg u c
  | .disconnect u c => wsDisconnect reg u c
  | .send u fail => (sendPersonalMessage fail reg u ()).1

def runOps (ops : List WsOp) : Registry := ops.foldl stepOp []

/-- A Python `dict` of `set`s: keys unique, sets duplicate-free. -/
def RegWF (reg : Registry) : Prop :=
  (reg.map Prod.fst).Nodup ∧ ∀ p ∈ reg, p.2.Nodup

/-- No registered user maps to an empty connection set. -/
def RegNonempty (reg : Registry) : Prop := ∀ p ∈ reg, p.2 ≠ []

/-! ## Messaging (`routers/messages.py`) -/

/-- The `messages` table row. -/
structure Message where
  id : Nat
  sender_id : UserId
  recipient_id : UserId
  content : String
  is_read : Bool
  created_at : Ts
deriving DecidableEq

/-- The store as seen by the messages router (users plus messages). -/
structure MsgDB where
  users : List UserId
  messages : List Message
  nextMessageId : Nat
deriving DecidableEq

/-- The payload `notify_new_message` pushes over the websocket: a
`new_message` event with a 100-character content preview. -/
structure WsEvent where
  etype : String
  message_id : Nat
  sender_id : UserId
  preview : String
  created_at : Ts
deriving DecidableEq

/-- `send_message` (POST /messages): 404 when the recipient row does not
exist, 400 when the recipient is the sender; otherwise persist one unread
message row and fan the `new_message` event out to the recipient's live
connections through `send_personal_message`. -/
def sendMessage (fail : Conn → Bool) (mdb : MsgDB) (reg : Registry)
    (sender recipient : UserId) (content : String) (now : Ts) :
    Except HError (MsgDB × Registry × List (Conn × WsEvent)) :=
  if recipient ∉ mdb.users then .error .notFound
  else if recipient = sender then .error .badRequest
  else
    let msg : Message :=
      { id := mdb.nextMessageId, sender_id := sender, recipient_id := recipient,
        content := content, is_read := false, created_at := now }
    let mdb' : MsgDB :=
      { mdb with messages := mdb.messages ++ [msg], nextMessageId := mdb.nextMessageId + 1 }
    let ev : WsEvent :=
      { etype := "new_message", message_id := msg.id, sender_id := sender,
        preview := content.take 100, created_at := now }
    let p := sendPersonalMessage fail reg recipient ev
    .ok (mdb', p.1, p.2)

/-- Stable insertion into a descending-by-key list (equal keys keep the
earlier element first, like Python's stable sort; the SQL `ORDER BY ... DESC`
leaves tie order unspecified, and this picks one such order). -/
def insertDescBy {α : Type} (key : α → Nat) (a : α) : List α → List α
  | [] => [a]
  | b :: bs => if key b ≤ key a then a :: b :: bs else b :: insertDescBy key a bs

/-- Stable descending sort by a `Nat` key. -/
def sortDescBy {α : Type} (key : α → Nat) : List α → List α
  | [] => []
  | a :: rest => insertDescBy key a (sortDescBy key rest)

/-- The `or_(and_(...), and_(...))` filter selecting both directions of the
conversation between two users. -/
def threadBetween (mdb : MsgDB) (u other : UserId) : List Message :=
  mdb.messages.filter (fun m =>
    (m.sender_id == u && m.recipient_id == other) ||
    (m.sender_id == other && m.recipient_id == u))

/-- The `UPDATE` in `get_conversation_thread`: set the read flag on every
unread message sent by `other` to `u`. -/
def markThreadRead (u other : UserId) (m : Message) : Message :=
  if m.sender_id = other ∧ m.recipient_id = u ∧ m.is_read = false then
    { m with is_read := true }
  else m

/-- `get_conversation_thread` (GET /messages/conversations/other): 404 when
the counterpart does not exist; return a newest-first page of the thread and,
independently of pagination, mark every unread message from the counterpart
as read. -/
def getConversationThread (mdb : MsgDB) (u other : UserId) (page pageSize : Nat) :
    Except HError (List Message × MsgDB) :=
  if other ∉ mdb.users then .error .notFound
  else
    let pageMsgs :=
      (((sortDescBy (fun m => m.created_at) (threadBetween mdb u other)).drop
          ((page - 1) * pageSize)).take pageSize)
    .ok (pageMsgs, { mdb with messages := mdb.messages.map (markThreadRead u other) })

/-- The unread counter of `list_conversations`: messages sent by `other` to
`u` whose read flag is still clear. -/
def unreadFrom (mdb : MsgDB) (u other : UserId) : Nat :=
  (mdb.messages.filter (fun m =>
    m.sender_id == other && m.recipient_id == u && !m.is_read)).length

/-- `ConversationSummary` (schemas.py); the counterpart e-mail is elided with
the rest of the user profile. -/
structure ConversationSummary where
  other_user_id : UserId
  last_message : String
  last_message_at : Ts
  unread_count : Nat
deriving DecidableEq

/-- The distinct counterparts a user has exchanged messages with (the union
of the two `DISTINCT` queries; the Python `set` makes the order arbitrary). -/
def counterparts (mdb : MsgDB) (u : UserId) : List UserId :=
  (((mdb.messages.filter (fun m => m.sender_id == u)).map (fun m => m.recipient_id)) ++
   ((mdb.messages.filter (fun m => m.recipient_id == u)).map (fun m => m.sender_id))).eraseDups

/-- `order_by(created_at.desc()).first()` over the conversation. -/
def lastMessageBetween (mdb : MsgDB) (u other : UserId) : Option Message :=
  (sortDescBy (fun m => m.created_at) (threadBetween mdb u other)).head?

/-- `list_conversations` (GET /messages/conversations): one summary per
counterpart that still exists and has at least one message, sorted by most
recent message first. -/
def listConversations (mdb : MsgDB) (u : UserId) : List ConversationSummary :=
  sortDescBy (fun c => c.last_message_at)
    ((counterparts mdb u).filterMap (fun other =>
      if other ∉ mdb.users then none
      else
        match lastMessageBetween mdb u other with
        | none => none
        | some last =>
          some { other_user_id := other, last_message := last.content.take 100,
                 last_message_at := last.created_at,
                 unread_count := unreadFrom mdb u other }))

/-! Concrete stores used by witnesses and counterexamples. -/

/-- A store holding one ACCEPTED match between Alice's offer and Bob's
request, awaiting Bob (used to refute C2 as literally stated). -/
def dbAcc : DB :=
  { offers := [⟨0, "alice", 1, 4⟩], requests := [⟨0, "bob", 2, 3⟩],
    matchRows := [⟨0, 0, 0, MatchStatus.accepted, some "bob"⟩], notifications := [],
    nextOfferId := 1, nextRequestId := 1, nextMatchId := 1 }

/-- A store holding one CONFIRMED (terminal) match. -/
def dbConf : DB :=
  { offers := [⟨0, "alice", 1, 4⟩], requests := [⟨0, "bob", 2, 3⟩],
    matchRows := [⟨0, 0, 0, MatchStatus.confirmed, none⟩], notifications := [],
    nextOfferId := 1, nextRequestId := 1, nextMatchId := 1 }

/-- A store holding one PENDING match between Alice's offer and Bob's
request, awaiting Alice. -/
def dbPend : DB :=
  { offers := [⟨0, "alice", 1, 4⟩], requests := [⟨0, "bob", 2, 3⟩],
    matchRows := [⟨0, 0, 0, MatchStatus.pending, some "alice"⟩], notifications := [],
    nextOfferId := 1, nextRequestId := 1, nextMatchId := 1 }

def dbPendAccepted : DB :=
  { dbPend with
    matchRows := [⟨0, 0, 0, MatchStatus.accepted, some "bob"⟩],
    notifications := [⟨"bob", "Regami - Votre demande a été acceptée!"⟩] }

def dbAccConfirmed : DB :=
  { dbAcc with
    matchRows := [⟨0, 0, 0, MatchStatus.confirmed, none⟩],
    notifications := [⟨"alice", "Regami - Garde confirmée!"⟩,
      ⟨"bob", "Regami - Garde confirmée!"⟩] }

def dbAccRejected : DB :=
  { dbAcc with
    matchRows := [⟨0, 0, 0, MatchStatus.rejected, none⟩],
    notifications := [⟨"alice", "Regami - Demande de garde annulée"⟩] }

/-- A messaging store with users a, b and no messages. -/
def mdbW : MsgDB := { users := ["a", "b"], messages := [], nextMessageId := 0 }

/-- A registry where b has two live connections. -/
def regW : Registry := [("b", [7, 8])]

/-- A messaging store where b has sent a two unread messages and received one. -/
def mdbT : MsgDB :=
  { users := ["a", "b"],
    messages := [⟨0, "b", "a", "hi", false, 1⟩, ⟨1, "a", "b", "yo", false, 2⟩,
      ⟨2, "b", "a", "2nd", false, 3⟩],
    nextMessageId := 3 }

/-- Extract the store of a successful `createOffer` / `createRequest` call. -/
def okDB (x : Except HError (DB × Nat)) : DB :=
  match x with
  | .ok p => p.1
  | .error _ => DB.empty

/-- Extract the payload of a successful `getConversationThread` call. -/
def okThread (x : Except HError (List Message × MsgDB)) : List Message × MsgDB :=
  match x with
  | .ok p => p
  | .error _ => ([], ⟨[], [], 0⟩)

/-! ## Helper lemmas: the matching engine -/

theorem createMatch_preserves {db db' : DB} {o : AvailabilityOffer} {r : AvailabilityRequest}
    {m : Match} (h : createMatch db o r = .ok (db', m)) :
    db'.offers = db.offers ∧ db'.requests = db.requests ∧
    db'.nextOfferId = db.nextOfferId ∧ db'.nextRequestId = db.nextRequestId := by
  unfold createMatch at h
  split at h
  · split at h <;> simp only [Except.ok.injEq, Prod.mk.injEq] at h
    · obtain ⟨h1, _⟩ := h; subst h1; exact ⟨rfl, rfl, rfl, rfl⟩
    · obtain ⟨h1, _⟩ := h; subst h1; exact ⟨rfl, rfl, rfl, rfl⟩
  · cases h

theorem createMatch_matchRows {db db' : DB} {o : AvailabilityOffer} {r : AvailabilityRequest}
    {m : Match} (h : createMatch db o r = .ok (db', m)) :
    db'.matchRows = db.matchRows ∨
    (db'.matchRows = db.matchRows ++
        [⟨db.nextMatchId, o.id, r.id, .pending, some o.user_id⟩] ∧
      m = ⟨db.nextMatchId, o.id, r.id, .pending, some o.user_id⟩) := by
  unfold createMatch at h
  split at h
  · split at h <;> simp only [Except.ok.injEq, Prod.mk.injEq] at h
    · obtain ⟨h1, _⟩ := h; subst h1; exact Or.inl rfl
    · obtain ⟨h1, h2⟩ := h; subst h1; subst h2; exact Or.inr ⟨rfl, rfl⟩
  · cases h

theorem createMatch_creates {db : DB} (o : AvailabilityOffer) (r : AvailabilityRequest)
    (hof : (db.offers.find? (fun x => x.id == o.id)).isSome)
    (hrf : (db.requests.find? (fun x => x.id == r.id)).isSome)
    (hnone : db.matchRows.find? (fun m =>
        m.offer_id == o.id && m.request_id == r.id &&
        (m.status == MatchStatus.pending || m.status == MatchStatus.accepted)) = none) :
    ∃ db', createMatch db o r =
        .ok (db', ⟨db.nextMatchId, o.id, r.id, .pending, some o.user_id⟩) ∧
      db'.matchRows = db.matchRows ++
        [⟨db.nextMatchId, o.id, r.id, .pending, some o.user_id⟩] := by
  obtain ⟨lo, hlo⟩ := Option.isSome_iff_exists.mp hof
  obtain ⟨lr, hlr⟩ := Option.isSome_iff_exists.mp hrf
  refine ⟨{ db with
      matchRows := db.matchRows ++ [⟨db.nextMatchId, o.id, r.id, .pending, some o.user_id⟩],
      notifications := db.notifications ++ [⟨lo.user_id, "Regami - Nouvelle demande de garde"⟩],
      nextMatchId := db.nextMatchId + 1 }, ?_, rfl⟩
  unfold createMatch
  rw [hlo, hlr, hnone]

theorem matchOfferAux_skip {offer : AvailabilityOffer} {r : AvailabilityRequest}
    {rest : List AvailabilityRequest} {db : DB} {e : HError}
    (h : createMatch db offer r = .error e) :
    matchOfferAux offer db (r :: rest) = matchOfferAux offer db rest := by
  simp [matchOfferAux, h]

theorem matchOfferAux_cons_ok {offer : AvailabilityOffer} {r : AvailabilityRequest}
    {rest : List AvailabilityRequest} {db db1 : DB} {m : Match}
    (h : createMatch db offer r = .ok (db1, m)) :
    matchOfferAux offer db (r :: rest) =
      ((matchOfferAux offer db1 rest).1, m :: (matchOfferAux offer db1 rest).2) := by
  simp [matchOfferAux, h]

theorem matchRequestAux_skip {request : AvailabilityRequest} {o : AvailabilityOffer}
    {rest : List AvailabilityOffer} {db : DB} {e : HError}
    (h : createMatch db o request = .error e) :
    matchRequestAux request db (o :: rest) = matchRequestAux request db rest := by
  simp [matchRequestAux, h]

theorem matchRequestAux_cons_ok {request : AvailabilityRequest} {o : AvailabilityOffer}
    {rest : List AvailabilityOffer} {db db1 : DB} {m : Match}
    (h : createMatch db o request = .ok (db1, m)) :
    matchRequestAux request db (o :: rest) =
      ((matchRequestAux request db1 rest).1, m :: (matchRequestAux request db1 rest).2) := by
  simp [matchRequestAux, h]

theorem matchOfferAux_append (offer : AvailabilityOffer) (xs ys : List AvailabilityRequest) :
    ∀ db : DB, matchOfferAux offer db (xs ++ ys) =
      ((matchOfferAux offer (matchOfferAux offer db xs).1 ys).1,
       (matchOfferAux offer db xs).2 ++ (matchOfferAux offer (matchOfferAux offer db xs).1 ys).2) := by
  induction xs with
  | nil => intro db; simp [matchOfferAux]
  | cons r rest ih =>
    intro db
    rcases hc : createMatch db offer r with e | p
    · simp only [List.cons_append, matchOfferAux_skip hc]
      exact ih db
    · obtain ⟨db1, m⟩ := p
      simp only [List.cons_append, matchOfferAux_cons_ok hc, ih db1, List.cons_append]

theorem matchRequestAux_append (request : AvailabilityRequest) (xs ys : List AvailabilityOffer) :
    ∀ db : DB, matchRequestAux request db (xs ++ ys) =
      ((matchRequestAux request (matchRequestAux request db xs).1 ys).1,
       (matchRequestAux request db xs).2 ++
         (matchRequestAux request (matchRequestAux request db xs).1 ys).2) := by
  induction xs with
  | nil => intro db; simp [matchRequestAux]
  | cons o rest ih =>
    intro db
    rcases hc : createMatch db o request with e | p
    · simp only [List.cons_append, matchRequestAux_skip hc]
      exact ih db
    · obtain ⟨db1, m⟩ := p
      simp only [List.cons_append, matchRequestAux_cons_ok hc, ih db1, List.cons_append]

/-! ## C5 -/

/-- **C5**: the matching engine processes each compatible candidate
independently: a candidate on which `createMatch` raises is skipped with the
store unchanged and the remaining candidates still processed; a candidate on
which it succeeds contributes its (new or pre-existing) match to the returned
list; processing a candidate prefix never aborts the suffix; and
`_match_offer` / `_match_request` are exactly this loop over the compatible
candidates. -/
theorem C5_matching_candidates_independent :
    (∀ (offer : AvailabilityOffer) (r : AvailabilityRequest)
       (rest : List AvailabilityRequest) (db : DB) (e : HError),
       createMatch db offer r = .error e →
       matchOfferAux offer db (r :: rest) = matchOfferAux offer db rest) ∧
    (∀ (offer : AvailabilityOffer) (r : AvailabilityRequest)
       (rest : List AvailabilityRequest) (db db1 : DB) (m : Match),
       createMatch db offer r = .ok (db1, m) →
       matchOfferAux offer db (r :: rest) =
         ((matchOfferAux offer db1 rest).1, m :: (matchOfferAux offer db1 rest).2)) ∧
    (∀ (request : AvailabilityRequest) (o : AvailabilityOffer)
       (rest : List AvailabilityOffer) (db : DB) (e : HError),
       createMatch db o request = .error e →
       matchRequestAux request db (o :: rest) = matchRequestAux request db rest) ∧
    (∀ (request : AvailabilityRequest) (o : AvailabilityOffer)
       (rest : List AvailabilityOffer) (db db1 : DB) (m : Match),
       createMatch db o request = .ok (db1, m) →
       matchRequestAux request db (o :: rest) =
         ((matchRequestAux request db1 rest).1, m :: (matchRequestAux request db1 rest).2)) ∧
    (∀ (offer : AvailabilityOffer) (xs ys : List AvailabilityRequest) (db : DB),
       matchOfferAux offer db (xs ++ ys) =
         ((matchOfferAux offer (matchOfferAux offer db xs).1 ys).1,
          (matchOfferAux offer db xs).2 ++
            (matchOfferAux offer (matchOfferAux offer db xs).1 ys).2)) ∧
    (∀ (request : AvailabilityRequest) (xs ys : List AvailabilityOffer) (db : DB),
       matchRequestAux request db (xs ++ ys) =
         ((matchRequestAux request (matchRequestAux request db xs).1 ys).1,
          (matchRequestAux request db xs).2 ++
            (matchRequestAux request (matchRequestAux request db xs).1 ys).2)) ∧
    (∀ (db : DB) (offer : AvailabilityOffer),
       matchOffer db offer = matchOfferAux offer db (compatibleRequests db offer)) ∧
    (∀ (db : DB) (request : AvailabilityRequest),
       matchRequest db request = matchRequestAux request db (compatibleOffers db request)) := by
  refine ⟨?_, ?_, ?_, ?_, ?_, ?_, ?_, ?_⟩
  · intro offer r rest db e h; exact matchOfferAux_skip h
  · intro offer r rest db db1 m h; exact matchOfferAux_cons_ok h
  · intro request o rest db e h; exact matchRequestAux_skip h
  · intro request o rest db db1 m h; exact matchRequestAux_cons_ok h
  · intro offer xs ys db; exact matchOfferAux_append offer xs ys db
  · intro request xs ys db; exact matchRequestAux_append request xs ys db
  · intro db offer; rfl
  · intro db request; rfl

/-- Witness for C5: on the empty store every `createMatch` raises 404, and
the loop on one failing candidate equals the loop on no candidate. -/
theorem C5_witness :
    matchOfferAux ⟨0, "a", 1, 4⟩ DB.empty [⟨0, "b", 2, 3⟩] =
      matchOfferAux ⟨0, "a", 1, 4⟩ DB.empty [] :=
  C5_matching_candidates_independent.1 ⟨0, "a", 1, 4⟩ ⟨0, "b", 2, 3⟩ [] DB.empty
    HError.notFound rfl

/-! ## C2, C3, C4: the match lifecycle state machine -/

/-- **C2** (amended): when the caller is the match's current pending user,
`accept` on a non-PENDING match and `confirm` on a non-ACCEPTED match fail
with the invalid-transition error (a different caller is stopped by the
authorization check, which runs first, and receives authorization-denied
instead — see the counterexample); the failing transaction leaves the store
unchanged, and no `accept`, `confirm` or `reject` ever succeeds on a match
whose status is CONFIRMED or REJECTED. -/
theorem C2_invalid_transitions (db : DB) (matchId : Nat) (u : UserId) (m : Match)
    (hfind : db.matchRows.find? (fun x => x.id == matchId) = some m) :
    (m.pending_user_id = some u → m.status ≠ MatchStatus.pending →
       acceptMatch db matchId u = .error .badRequest) ∧
    (m.pending_user_id = some u → m.status ≠ MatchStatus.accepted →
       confirmMatch db matchId u = .error .badRequest) ∧
    (m.status = MatchStatus.confirmed ∨ m.status = MatchStatus.rejected →
       isOk (acceptMatch db matchId u) = false ∧
       isOk (confirmMatch db matchId u) = false ∧
       isOk (rejectMatch db matchId u) = false) := by
  refine ⟨?_, ?_, ?_⟩
  · intro hp hs
    simp [acceptMatch, hfind, hp, hs]
  · intro hp hs
    simp [confirmMatch, hfind, hp, hs]
  · intro hterm
    have hsp : m.status ≠ MatchStatus.pending := by
      rcases hterm with h | h <;> simp [h]
    have hsa : m.status ≠ MatchStatus.accepted := by
      rcases hterm with h | h <;> simp [h]
    refine ⟨?_, ?_, ?_⟩
    · by_cases hp : m.pending_user_id = some u
      · simp [acceptMatch, hfind, hp, hsp, isOk]
      · simp [acceptMatch, hfind, hp, isOk]
    · by_cases hp : m.pending_user_id = some u
      · simp [confirmMatch, hfind, hp, hsa, isOk]
      · simp [confirmMatch, hfind, hp, isOk]
    · by_cases hauth : isOfferOwner db m u = true ∨ isRequester db m u = true
      · simp [rejectMatch, hfind, hauth, hsp, hsa, isOk]
      · simp [rejectMatch, hfind, hauth, isOk]

/-- **C2, counterexample to the claim as stated**: match 0 of `dbAcc` is not
PENDING, yet `accept` invoked on it by Alice (the offer owner, not the
pending user) fails with authorization-denied, not with the
invalid-transition signal: the authorization check runs before the status
check. -/
theorem C2_counterexample :
    dbAcc.matchRows.find? (fun x => x.id == 0) =
        some ⟨0, 0, 0, MatchStatus.accepted, some "bob"⟩ ∧
    MatchStatus.accepted ≠ MatchStatus.pending ∧
    acceptMatch dbAcc 0 "alice" = .error .forbidden ∧
    HError.forbidden ≠ HError.badRequest := by
  refine ⟨rfl, by decide, by decide, by decide⟩

/-- Witness for C2: Bob (the pending user) accepting the already-ACCEPTED
match gets the invalid-transition error, and nothing succeeds on a CONFIRMED
match. -/
theorem C2_witness :
    acceptMatch dbAcc 0 "bob" = .error .badRequest ∧
    isOk (acceptMatch dbConf 0 "alice") = false ∧
    isOk (confirmMatch dbConf 0 "alice") = false ∧
    isOk (rejectMatch dbConf 0 "alice") = false := by
  have h1 := C2_invalid_transitions dbAcc 0 "bob"
    ⟨0, 0, 0, MatchStatus.accepted, some "bob"⟩ rfl
  have h2 := C2_invalid_transitions dbConf 0 "alice"
    ⟨0, 0, 0, MatchStatus.confirmed, none⟩ rfl
  exact ⟨h1.1 rfl (by decide), (h2.2.2 (Or.inl rfl)).1, (h2.2.2 (Or.inl rfl)).2.1,
    (h2.2.2 (Or.inl rfl)).2.2⟩

/-- **C3**: postconditions of the successful transitions: `accept` leaves the
match ACCEPTED with the request owner as pending user, `confirm` leaves it
CONFIRMED with no pending user, `reject` leaves it REJECTED with no pending
user. -/
theorem C3_transition_postconditions (db : DB) (matchId : Nat) (u : UserId)
    (db' : DB) (m' : Match) :
    (acceptMatch db matchId u = .ok (db', m') →
       m'.status = MatchStatus.accepted ∧
       ∃ req, db.requests.find? (fun r => r.id == m'.request_id) = some req ∧
         m'.pending_user_id = some req.user_id) ∧
    (confirmMatch db matchId u = .ok (db', m') →
       m'.status = MatchStatus.confirmed ∧ m'.pending_user_id = none) ∧
    (rejectMatch db matchId u = .ok (db', m') →
       m'.status = MatchStatus.rejected ∧ m'.pending_user_id = none) := by
  refine ⟨?_, ?_, ?_⟩
  · intro h
    unfold acceptMatch at h
    split at h
    · cases h
    · rename_i m hfind
      split at h
      · cases h
      · split at h
        · cases h
        · split at h
          · rename_i req off hreq hoff
            simp only [Except.ok.injEq, Prod.mk.injEq] at h
            obtain ⟨_, hm⟩ := h
            subst hm
            exact ⟨rfl, req, hreq, rfl⟩
          · cases h
  · intro h
    unfold confirmMatch at h
    split at h
    · cases h
    · rename_i m hfind
      split at h
      · cases h
      · split at h
        · cases h
        · split at h
          · rename_i req off hreq hoff
            simp only [Except.ok.injEq, Prod.mk.injEq] at h
            obtain ⟨_, hm⟩ := h
            subst hm
            exact ⟨rfl, rfl⟩
          · cases h
  · intro h
    unfold rejectMatch at h
    split at h
    · cases h
    · rename_i m hfind
      split at h
      · cases h
      · split at h
        · cases h
        · split at h
          · cases h
          · rename_i other hother
            simp only [Except.ok.injEq, Prod.mk.injEq] at h
            obtain ⟨_, hm⟩ := h
            subst hm
            exact ⟨rfl, rfl⟩

/-- Witness for C3 (Alice accepts, Bob confirms, Bob rejects, on concrete
stores). -/
theorem C3_witness :
    ((⟨0, 0, 0, MatchStatus.accepted, some "bob"⟩ : Match).status = MatchStatus.accepted ∧
      ∃ req, dbPend.requests.find?
          (fun r => r.id == (⟨0, 0, 0, MatchStatus.accepted, some "bob"⟩ : Match).request_id) =
            some req ∧
        (⟨0, 0, 0, MatchStatus.accepted, some "bob"⟩ : Match).pending_user_id =
          some req.user_id) ∧
    ((⟨0, 0, 0, MatchStatus.confirmed, none⟩ : Match).status = MatchStatus.confirmed ∧
      (⟨0, 0, 0, MatchStatus.confirmed, none⟩ : Match).pending_user_id = none) ∧
    ((⟨0, 0, 0, MatchStatus.rejected, none⟩ : Match).status = MatchStatus.rejected ∧
      (⟨0, 0, 0, MatchStatus.rejected, none⟩ : Match).pending_user_id = none) := by
  refine ⟨?_, ?_, ?_⟩
  · exact (C3_transition_postconditions dbPend 0 "alice" dbPendAccepted
      ⟨0, 0, 0, MatchStatus.accepted, some "bob"⟩).1 (by decide)
  · exact (C3_transition_postconditions dbAcc 0 "bob" dbAccConfirmed
      ⟨0, 0, 0, MatchStatus.confirmed, none⟩).2.1 (by decide)
  · exact (C3_transition_postconditions dbAcc 0 "bob" dbAccRejected
      ⟨0, 0, 0, MatchStatus.rejected, none⟩).2.2 (by decide)

/-- **C4**: `accept` and `confirm` succeed only for the match's current
pending user and answer authorization-denied to anyone else; `reject`
succeeds only for the offer owner or the requester and answers
authorization-denied to anyone else. -/
theorem C4_transition_authorization (db : DB) (matchId : Nat) (u : UserId) (m : Match)
    (hfind : db.matchRows.find? (fun x => x.id == matchId) = some m) :
    (isOk (acceptMatch db matchId u) = true → m.pending_user_id = some u) ∧
    (m.pending_user_id ≠ some u → acceptMatch db matchId u = .error .forbidden) ∧
    (isOk (confirmMatch db matchId u) = true → m.pending_user_id = some u) ∧
    (m.pending_user_id ≠ some u → confirmMatch db matchId u = .error .forbidden) ∧
    (isOk (rejectMatch db matchId u) = true →
       isOfferOwner db m u = true ∨ isRequester db m u = true) ∧
    (isOfferOwner db m u = false → isRequester db m u = false →
       rejectMatch db matchId u = .error .forbidden) := by
  refine ⟨?_, ?_, ?_, ?_, ?_, ?_⟩
  · intro hok
    by_contra hp
    simp [acceptMatch, hfind, hp, isOk] at hok
  · intro hp
    simp [acceptMatch, hfind, hp]
  · intro hok
    by_contra hp
    simp [confirmMatch, hfind, hp, isOk] at hok
  · intro hp
    simp [confirmMatch, hfind, hp]
  · intro hok
    by_contra hauth
    push_neg at hauth
    simp [rejectMatch, hfind, hauth.1, hauth.2, isOk] at hok
  · intro h1 h2
    simp [rejectMatch, hfind, h1, h2]

/-- Witness for C4: on `dbPend`, the stranger Carol gets
authorization-denied from all three transitions. -/
theorem C4_witness :
    acceptMatch dbPend 0 "carol" = .error .forbidden ∧
    confirmMatch dbPend 0 "carol" = .error .forbidden ∧
    rejectMatch dbPend 0 "carol" = .error .forbidden := by
  have h := C4_transition_authorization dbPend 0 "carol"
    ⟨0, 0, 0, MatchStatus.pending, some "alice"⟩ rfl
  exact ⟨h.2.1 (by decide), h.2.2.2.1 (by decide), h.2.2.2.2.2 (by decide) (by decide)⟩

/-! ## Helper lemmas: the connection registry -/

theorem find?_filter_of_imp {α : Type} (l : List α) (p q : α → Bool)
    (h : ∀ a, p a = true → q a = true) : (l.filter q).find? p = l.find? p := by
  induction l with
  | nil => rfl
  | cons a t ih =>
    cases hq : q a with
    | true =>
      rw [List.filter_cons_of_pos hq]
      cases hp : p a with
      | true => rw [List.find?_cons_of_pos _ hp, List.find?_cons_of_pos _ hp]
      | false =>
        rw [List.find?_cons_of_neg _ (by simp [hp]), List.find?_cons_of_neg _ (by simp [hp]), ih]
    | false =>
      have hp : p a = false := by
        cases hpa : p a with
        | true => exact absurd (h a hpa) (by simp [hq])
        | false => rfl
      rw [List.filter_cons_of_neg (by simp [hq]), List.find?_cons_of_neg _ (by simp [hp]), ih]

theorem find?_map_fixed {α : Type} (l : List α) (p : α → Bool) (f : α → α)
    (hfix : ∀ a, p a = true → f a = a) (hpf : ∀ a, p (f a) = p a) :
    (l.map f).find? p = l.find? p := by
  induction l with
  | nil => rfl
  | cons a t ih =>
    rw [List.map_cons]
    cases hpa : p a with
    | true =>
      rw [List.find?_cons_of_pos _ (by rw [hpf a, hpa]), List.find?_cons_of_pos _ hpa, hfix a hpa]
    | false =>
      rw [List.find?_cons_of_neg _ (by simp [hpf a, hpa]), List.find?_cons_of_neg _ (by simp [hpa]),
        ih]

theorem connsOf_wsDisconnect_self (reg : Registry) (u : UserId) (c : Conn) :
    connsOf (wsDisconnect reg u c) u = (connsOf reg u).erase c := by
  unfold wsDisconnect
  cases hf : reg.find? (fun q => q.1 == u) with
  | none => simp [connsOf, hf]
  | some p =>
    have hcOld : connsOf reg u = p.2 := by simp [connsOf, hf]
    rw [hcOld]
    dsimp only
    by_cases he : p.2.erase c = []
    · rw [if_pos he, he]
      have hnone : (reg.filter (fun q => !(q.1 == u))).find? (fun q => q.1 == u) = none := by
        apply List.find?_eq_none.mpr
        intro q hq
        have := (List.mem_filter.mp hq).2
        simpa using this
      unfold connsOf
      rw [hnone]
    · rw [if_neg he]
      have hkey : (p.1 == u) = true := by
        have := List.find?_some hf
        simpa using this
      have hmap : ((reg.map (fun q => if q.1 == u then (q.1, p.2.erase c) else q)).find?
          (fun q => q.1 == u)) = some (p.1, p.2.erase c) := by
        rw [List.find?_map]
        have hcomp : ((fun q : UserId × List Conn => q.1 == u) ∘
            (fun q : UserId × List Conn => if q.1 == u then (q.1, p.2.erase c) else q)) =
            fun q : UserId × List Conn => q.1 == u := by
          funext q
          by_cases hq : (q.1 == u) = true
          · simp [Function.comp, hq]
          · simp [Function.comp, hq]
        rw [hcomp, hf]
        show some (if (p.1 == u) = true then (p.1, p.2.erase c) else p) = _
        rw [if_pos hkey]
      unfold connsOf
      rw [hmap]

theorem connsOf_wsDisconnect_ne (reg : Registry) (u : UserId) (c : Conn) (u' : UserId)
    (h : u' ≠ u) : connsOf (wsDisconnect reg u c) u' = connsOf reg u' := by
  unfold wsDisconnect
  cases hf : reg.find? (fun q => q.1 == u) with
  | none => rfl
  | some p =>
    dsimp only
    by_cases he : p.2.erase c = []
    · rw [if_pos he]
      have hfind : (reg.filter (fun q => !(q.1 == u))).find? (fun q => q.1 == u') =
          reg.find? (fun q => q.1 == u') := by
        apply find?_filter_of_imp
        intro a ha
        have ha' : a.1 = u' := by simpa using ha
        simp [ha', h]
      unfold connsOf
      rw [hfind]
    · rw [if_neg he]
      have hfind : ((reg.map (fun q => if q.1 == u then (q.1, p.2.erase c) else q)).find?
          (fun q => q.1 == u')) = reg.find? (fun q => q.1 == u') := by
        apply find?_map_fixed
        · intro a ha
          have ha' : a.1 = u' := by simpa using ha
          have : (a.1 == u) = false := by simp [ha', h]
          simp [this]
        · intro a
          by_cases hq : (a.1 == u) = true
          · simp [hq]
          · simp [hq]
      unfold connsOf
      rw [hfind]

theorem connsOf_foldl_wsDisconnect (u : UserId) (bad : List Conn) :
    ∀ reg : Registry, connsOf (bad.foldl (fun r c => wsDisconnect r u c) reg) u =
      bad.foldl (fun l c => l.erase c) (connsOf reg u) := by
  induction bad with
  | nil => intro reg; rfl
  | cons b bs ih =>
    intro reg
    simp only [List.foldl_cons]
    rw [ih (wsDisconnect reg u b), connsOf_wsDisconnect_self]

theorem connsOf_foldl_wsDisconnect_ne (u u' : UserId) (h : u' ≠ u) (bad : List Conn) :
    ∀ reg : Registry, connsOf (bad.foldl (fun r c => wsDisconnect r u c) reg) u' =
      connsOf reg u' := by
  induction bad with
  | nil => intro reg; rfl
  | cons b bs ih =>
    intro reg
    simp only [List.foldl_cons]
    rw [ih (wsDisconnect reg u b), connsOf_wsDisconnect_ne _ _ _ _ h]

theorem foldl_erase_eq_filter (bad : List Conn) :
    ∀ l : List Conn, l.Nodup →
      bad.foldl (fun acc c => acc.erase c) l = l.filter (fun c => decide (c ∉ bad)) := by
  induction bad with
  | nil => intro l _; simp
  | cons b bs ih =>
    intro l hl
    simp only [List.foldl_cons]
    rw [ih (l.erase b) (hl.erase b), hl.erase_eq_filter, List.filter_filter]
    apply List.filter_congr
    intro c _
    by_cases hb : c = b <;> by_cases hbs : c ∈ bs <;> simp [hb, hbs]

theorem sendPersonalMessage_nofail {Ev : Type} (reg : Registry) (u : UserId) (ev : Ev) :
    sendPersonalMessage (fun _ => false) reg u ev =
      (reg, (connsOf reg u).map (fun c => (c, ev))) := by
  unfold sendPersonalMessage
  cases hf : reg.find? (fun p => p.1 == u) with
  | none => simp [connsOf, hf]
  | some p => simp [connsOf, hf]

/-! ## C9 -/

/-- **C9**: `send_personal_message` delivers the event to every connection
registered for the user at call time whose transport works; a connection
whose send fails is removed from the registry (the user's entry disappearing
when no connection is left, per `disconnect`), while delivery still reaches
the user's other connections and every other user's registry entry is
untouched. -/
theorem C9_send_to_user {Ev : Type} (reg : Registry) (u : UserId) (ev : Ev)
    (fail : Conn → Bool) (hnd : (connsOf reg u).Nodup) :
    (sendPersonalMessage fail reg u ev).2 =
      ((connsOf reg u).filter (fun c => !fail c)).map (fun c => (c, ev)) ∧
    connsOf (sendPersonalMessage fail reg u ev).1 u =
      (connsOf reg u).filter (fun c => !fail c) ∧
    (∀ u', u' ≠ u →
      connsOf (sendPersonalMessage fail reg u ev).1 u' = connsOf reg u') := by
  unfold sendPersonalMessage
  cases hf : reg.find? (fun p => p.1 == u) with
  | none =>
    have hc : connsOf reg u = [] := by simp [connsOf, hf]
    exact ⟨by simp [hc], by simp [hc, connsOf, hf], fun u' _ => rfl⟩
  | some p =>
    have hc : connsOf reg u = p.2 := by simp [connsOf, hf]
    refine ⟨by simp [hc], ?_, ?_⟩
    · simp only
      rw [connsOf_foldl_wsDisconnect, hc, foldl_erase_eq_filter _ _ (hc ▸ hnd)]
      apply List.filter_congr
      intro c hcm
      by_cases hfc : fail c = true <;> simp [hfc, List.mem_filter, hcm]
    · intro u' hu'
      simp only
      rw [connsOf_foldl_wsDisconnect_ne _ _ hu']

/-- Witness for C9: user `u` has connections 1,2,3 of which 2 is broken; 1
and 3 still receive the event, 2 is dropped from the registry, `v` is
untouched. -/
theorem C9_witness :
    (sendPersonalMessage (fun c => c == 2) [("u", [1, 2, 3]), ("v", [9])] "u" "ev").2 =
      [(1, "ev"), (3, "ev")] ∧
    connsOf (sendPersonalMessage (fun c => c == 2) [("u", [1, 2, 3]), ("v", [9])] "u" "ev").1
      "u" = [1, 3] ∧
    connsOf (sendPersonalMessage (fun c => c == 2) [("u", [1, 2, 3]), ("v", [9])] "u" "ev").1
      "v" = [9] := by
  have h := C9_send_to_user [("u", [1, 2, 3]), ("v", [9])] "u" "ev" (fun c => c == 2)
    (by decide)
  exact ⟨h.1, h.2.1, h.2.2 "v" (by decide)⟩

/-! ## C10 -/

theorem regNonempty_wsConnect (reg : Registry) (u : UserId) (c : Conn)
    (h : RegNonempty reg) : RegNonempty (wsConnect reg u c) := by
  unfold wsConnect
  cases hf : reg.find? (fun p => p.1 == u) with
  | none =>
    intro p hp
    rcases List.mem_append.mp hp with hp | hp
    · exact h p hp
    · simp at hp; simp [hp]
  | some q =>
    by_cases hc : c ∈ q.2
    · simpa [hc] using h
    · simp only [hc, if_false]
      intro p hp
      obtain ⟨a, ha, hfa⟩ := List.mem_map.mp hp
      by_cases hau : a.1 == u
      · simp [hau] at hfa
        simp [← hfa]
      · simp [hau] at hfa
        exact hfa ▸ h a ha

theorem regNonempty_wsDisconnect (reg : Registry) (u : UserId) (c : Conn)
    (h : RegNonempty reg) : RegNonempty (wsDisconnect reg u c) := by
  unfold wsDisconnect
  cases hf : reg.find? (fun p => p.1 == u) with
  | none => exact h
  | some q =>
    by_cases he : q.2.erase c = []
    · simp only [he, if_true]
      intro p hp
      exact h p (List.mem_filter.mp hp).1
    · simp only [he, if_false]
      intro p hp
      obtain ⟨a, ha, hfa⟩ := List.mem_map.mp hp
      by_cases hau : a.1 == u
      · simp [hau] at hfa
        rw [← hfa]
        exact he
      · simp [hau] at hfa
        exact hfa ▸ h a ha

theorem regNonempty_foldl_wsDisconnect (u : UserId) (bad : List Conn) :
    ∀ reg : Registry, RegNonempty reg →
      RegNonempty (bad.foldl (fun r c => wsDisconnect r u c) reg) := by
  induction bad with
  | nil => intro reg h; exact h
  | cons b bs ih =>
    intro reg h
    exact ih _ (regNonempty_wsDisconnect reg u b h)

/-- **C10**: each registry operation — `connect`, `disconnect` (also the
failure-cleanup inside `send_personal_message`) — preserves the invariant
that every registered user id maps to a non-empty connection set, and any
sequence of operations run from the empty registry satisfies it. -/
theorem C10_registry_nonempty_invariant :
    (∀ (reg : Registry) (op : WsOp), RegNonempty reg → RegNonempty (stepOp reg op)) ∧
    (∀ ops : List WsOp, RegNonempty (runOps ops)) := by
  have hstep : ∀ (reg : Registry) (op : WsOp), RegNonempty reg → RegNonempty (stepOp reg op) := by
    intro reg op h
    cases op with
    | connect u c => exact regNonempty_wsConnect reg u c h
    | disconnect u c => exact regNonempty_wsDisconnect reg u c h
    | send u fail =>
      dsimp only [stepOp]
      unfold sendPersonalMessage
      cases hf : reg.find? (fun p => p.1 == u) with
      | none => exact h
      | some p => exact regNonempty_foldl_wsDisconnect u _ reg h
  refine ⟨hstep, ?_⟩
  intro ops
  have : ∀ (l : List WsOp) (reg : Registry), RegNonempty reg →
      RegNonempty (l.foldl stepOp reg) := by
    intro l
    induction l with
    | nil => intro reg h; exact h
    | cons op rest ih => intro reg h; exact ih _ (hstep reg op h)
  exact this ops [] (by intro p hp; cases hp)

/-- Witness for C10: connecting, disconnecting down to empty, and a send
whose only connection fails all leave no empty entry behind. -/
theorem C10_witness :
    RegNonempty (stepOp [("u", [1])] (WsOp.disconnect "u" 1)) ∧
    RegNonempty (stepOp [("u", [1])] (WsOp.send "u" (fun _ => true))) ∧
    RegNonempty (runOps [WsOp.connect "u" 1, WsOp.connect "v" 2, WsOp.disconnect "u" 1]) := by
  refine ⟨?_, ?_, (C10_registry_nonempty_invariant.2 _)⟩
  · exact C10_registry_nonempty_invariant.1 [("u", [1])] (WsOp.disconnect "u" 1)
      (by intro p hp; simp at hp; simp [hp])
  · exact C10_registry_nonempty_invariant.1 [("u", [1])] (WsOp.send "u" (fun _ => true))
      (by intro p hp; simp at hp; simp [hp])

/-! ## C6 -/

/-- **C6** (amended): in the receive loop, a frame that parses to a JSON
object whose `type` field is the string `ping` elicits a `pong` reply and
any other JSON *object* is accepted and ignored; but a frame that is not a
JSON object — text that fails to parse (`json.loads` raises) or parses to a
string, number, boolean, null or array (`.get` raises `AttributeError`) —
lands in the `except` branch, which removes this connection (and only this
connection) from the registry and ends the loop. -/
theorem C6_receive_loop :
    (∀ fields : List (String × Json), isPing (jsonGet fields "type") = true →
       receiveStep (some (.obj fields)) = .pong) ∧
    (∀ fields : List (String × Json), isPing (jsonGet fields "type") = false →
       receiveStep (some (.obj fields)) = .noop) ∧
    receiveStep none = .closeConn ∧
    receiveStep (some .null) = .closeConn ∧
    (∀ b, receiveStep (some (.bool b)) = .closeConn) ∧
    (∀ n, receiveStep (some (.num n)) = .closeConn) ∧
    (∀ str, receiveStep (some (.str str)) = .closeConn) ∧
    (∀ elems, receiveStep (some (.arr elems)) = .closeConn) ∧
    (∀ (reg : Registry) (u : UserId) (c : Conn),
       connsOf (wsDisconnect reg u c) u = (connsOf reg u).erase c) ∧
    (∀ (reg : Registry) (u : UserId) (c : Conn) (u' : UserId), u' ≠ u →
       connsOf (wsDisconnect reg u c) u' = connsOf reg u') := by
  refine ⟨?_, ?_, rfl, rfl, fun _ => rfl, fun _ => rfl, fun _ => rfl, fun _ => rfl,
    connsOf_wsDisconnect_self, ?_⟩
  · intro fields h
    simp [receiveStep, h]
  · intro fields h
    simp [receiveStep, h]
  · intro reg u c u' h
    exact connsOf_wsDisconnect_ne reg u c u' h

/-- **C6, counterexample to the claim as stated**: a frame that is not a
JSON object is not ignored as a no-op — `json.loads` / `.get` raise, the
`except` branch runs, and the connection is removed. -/
theorem C6_counterexample :
    receiveStep none = .closeConn ∧
    receiveStep (some (Json.str "hello")) = .closeConn ∧
    StepResult.closeConn ≠ StepResult.noop := by
  exact ⟨rfl, rfl, by decide⟩

/-- Witness for C6: a ping object answers pong, another object is a no-op,
and a disconnect of one of u's connections leaves v untouched. -/
theorem C6_witness :
    receiveStep (some (Json.obj [("type", Json.str "ping")])) = .pong ∧
    receiveStep (some (Json.obj [("type", Json.str "custom")])) = .noop ∧
    connsOf (wsDisconnect [("u", [1]), ("v", [2])] "u" 1) "v" = [2] := by
  refine ⟨C6_receive_loop.1 _ rfl, C6_receive_loop.2.1 _ rfl, ?_⟩
  have h := C6_receive_loop.2.2.2.2.2.2.2.2.2 [("u", [1]), ("v", [2])] "u" 1 "v" (by decide)
  rw [h]
  rfl

/-! ## C7 -/

/-- **C7**: `send_message` fails with not-found for a nonexistent recipient
and fails for a self-send, persisting nothing in either case (the failing
request commits nothing); a successful send persists exactly one new unread
message row and delivers one `new_message` event to each live connection the
recipient has registered at that moment — none when there are none. -/
theorem C7_send_message (fail : Conn → Bool) (mdb : MsgDB) (reg : Registry)
    (sender recipient : UserId) (content : String) (now : Ts) :
    (recipient ∉ mdb.users →
       sendMessage fail mdb reg sender recipient content now = .error .notFound) ∧
    (recipient = sender →
       isOk (sendMessage fail mdb reg sender recipient content now) = false) ∧
    (recipient ∈ mdb.users → recipient ≠ sender →
       sendMessage (fun _ => false) mdb reg sender recipient content now =
         .ok ({ mdb with
                messages := mdb.messages ++
                  [⟨mdb.nextMessageId, sender, recipient, content, false, now⟩],
                nextMessageId := mdb.nextMessageId + 1 },
              reg,
              (connsOf reg recipient).map (fun c =>
                (c, ⟨"new_message", mdb.nextMessageId, sender, content.take 100, now⟩)))) := by
  refine ⟨?_, ?_, ?_⟩
  · intro h
    simp [sendMessage, h]
  · intro h
    unfold sendMessage
    by_cases hm : recipient ∈ mdb.users
    · rw [if_neg (not_not_intro hm), if_pos h]
      rfl
    · rw [if_pos hm]
      rfl
  · intro hm hne
    unfold sendMessage
    rw [if_neg (not_not_intro hm), if_neg hne]
    dsimp only
    rw [sendPersonalMessage_nofail]

/-- Witness for C7 on concrete stores: unknown recipient, self-send, and a
successful send to b with two live connections. -/
theorem C7_witness :
    sendMessage (fun _ => false) mdbW regW "a" "z" "hi" 5 = .error .notFound ∧
    isOk (sendMessage (fun _ => false) mdbW regW "a" "a" "hi" 5) = false ∧
    sendMessage (fun _ => false) mdbW regW "a" "b" "hello" 5 =
      .ok ({ mdbW with
             messages := mdbW.messages ++ [⟨mdbW.nextMessageId, "a", "b", "hello", false, 5⟩],
             nextMessageId := mdbW.nextMessageId + 1 },
           regW,
           (connsOf regW "b").map (fun c =>
             (c, ⟨"new_message", mdbW.nextMessageId, "a", "hello".take 100, 5⟩))) := by
  refine ⟨?_, ?_, ?_⟩
  · exact (C7_send_message (fun _ => false) mdbW regW "a" "z" "hi" 5).1 (by decide)
  · exact (C7_send_message (fun _ => false) mdbW regW "a" "a" "hi" 5).2.1 rfl
  · exact (C7_send_message (fun _ => false) mdbW regW "a" "b" "hello" 5).2.2 (by decide)
      (by decide)

/-! ## C8 -/

theorem mem_insertDescBy {α : Type} (key : α → Nat) (x : α) (l : List α) (a : α) :
    a ∈ insertDescBy key x l ↔ a = x ∨ a ∈ l := by
  induction l with
  | nil => simp [insertDescBy]
  | cons b bs ih =>
    unfold insertDescBy
    by_cases h : key b ≤ key x
    · simp [h]
    · simp only [h, if_false, List.mem_cons, ih]
      tauto

theorem mem_sortDescBy {α : Type} (key : α → Nat) (l : List α) (a : α) :
    a ∈ sortDescBy key l ↔ a ∈ l := by
  induction l with
  | nil => simp [sortDescBy]
  | cons b bs ih => simp [sortDescBy, mem_insertDescBy, ih]

/-- **C8**: fetching the thread with an existing counterpart marks every
previously-unread message from that counterpart as read (the `UPDATE` is not
limited to the returned page), so that `list_conversations` afterwards
reports zero unread for that counterpart. -/
theorem C8_thread_marks_read (mdb : MsgDB) (u other : UserId) (page pageSize : Nat)
    (hother : other ∈ mdb.users) :
    ∃ pageMsgs mdb',
      getConversationThread mdb u other page pageSize = .ok (pageMsgs, mdb') ∧
      mdb'.messages = mdb.messages.map (markThreadRead u other) ∧
      (∀ m ∈ mdb'.messages, ¬(m.sender_id = other ∧ m.recipient_id = u ∧ m.is_read = false)) ∧
      unreadFrom mdb' u other = 0 ∧
      (∀ conv ∈ listConversations mdb' u,
        conv.other_user_id = other → conv.unread_count = 0) := by
  have hthread : getConversationThread mdb u other page pageSize =
      .ok ((((sortDescBy (fun m => m.created_at) (threadBetween mdb u other)).drop
          ((page - 1) * pageSize)).take pageSize),
        { mdb with messages := mdb.messages.map (markThreadRead u other) }) := by
    unfold getConversationThread
    rw [if_neg (by simpa using hother)]
  refine ⟨_, _, hthread, rfl, ?_, ?_, ?_⟩
  all_goals
    have hno : ∀ m ∈ mdb.messages.map (markThreadRead u other),
        ¬(m.sender_id = other ∧ m.recipient_id = u ∧ m.is_read = false) := by
      intro m hm
      obtain ⟨m0, hm0, rfl⟩ := List.mem_map.mp hm
      unfold markThreadRead
      by_cases hc : m0.sender_id = other ∧ m0.recipient_id = u ∧ m0.is_read = false
      · rw [if_pos hc]
        rintro ⟨_, _, hread⟩
        simp at hread
      · rw [if_neg hc]
        exact hc
  · exact hno
  · unfold unreadFrom
    rw [List.length_eq_zero]
    rw [List.filter_eq_nil_iff]
    intro m hm
    have hx := hno m hm
    intro hcon
    simp only [Bool.and_eq_true, beq_iff_eq, Bool.not_eq_true'] at hcon
    exact hx ⟨hcon.1.1, hcon.1.2, hcon.2⟩
  · intro conv hconv hid
    have hconv' := (mem_sortDescBy _ _ _).mp hconv
    obtain ⟨c, hc, hfc⟩ := List.mem_filterMap.mp hconv'
    by_cases hcu : c ∈ ({ mdb with
        messages := mdb.messages.map (markThreadRead u other) } : MsgDB).users
    · rw [if_neg (by simpa using hcu)] at hfc
      cases hl : lastMessageBetween
          { mdb with messages := mdb.messages.map (markThreadRead u other) } u c with
      | none => rw [hl] at hfc; cases hfc
      | some last =>
        rw [hl] at hfc
        have hconv_eq := Option.some.inj hfc
        have hcid : c = other := by rw [← hid, ← hconv_eq]
        rw [← hconv_eq]
        subst hcid
        unfold unreadFrom
        rw [List.length_eq_zero, List.filter_eq_nil_iff]
        intro m hm
        have hx := hno m hm
        intro hcon
        simp only [Bool.and_eq_true, beq_iff_eq, Bool.not_eq_true'] at hcon
        exact hx ⟨hcon.1.1, hcon.1.2, hcon.2⟩
    · rw [if_pos (by simpa using hcu)] at hfc
      cases hfc

/-- Witness for C8: after a fetches the thread with b, no unread message
from b remains. -/
theorem C8_witness :
    unreadFrom (okThread (getConversationThread mdbT "a" "b" 1 50)).2 "a" "b" = 0 := by
  obtain ⟨pg, mdb', h1, _, _, h4, _⟩ := C8_thread_marks_read mdbT "a" "b" 1 50 (by decide)
  rw [h1]
  exact h4

/-! ## Helper lemmas for C1 -/

theorem pairMatches_createMatch_other {db db' : DB} {o : AvailabilityOffer}
    {r : AvailabilityRequest} {m : Match} {oid rid : Nat}
    (h : createMatch db o r = .ok (db', m)) (hne : ¬(o.id = oid ∧ r.id = rid)) :
    pairMatches db' oid rid = pairMatches db oid rid := by
  rcases createMatch_matchRows h with heq | ⟨heq, _⟩
  · unfold pairMatches
    rw [heq]
  · unfold pairMatches
    rw [heq, List.filter_append]
    have hsingle : (o.id == oid && r.id == rid) = false := by
      rcases not_and_or.mp hne with h1 | h1 <;> simp [h1]
    simp [hsingle]

theorem matchOfferAux_preserves (offer : AvailabilityOffer)
    (cands : List AvailabilityRequest) : ∀ db : DB,
    (matchOfferAux offer db cands).1.offers = db.offers ∧
    (matchOfferAux offer db cands).1.requests = db.requests ∧
    (matchOfferAux offer db cands).1.nextOfferId = db.nextOfferId ∧
    (matchOfferAux offer db cands).1.nextRequestId = db.nextRequestId := by
  induction cands with
  | nil => intro db; exact ⟨rfl, rfl, rfl, rfl⟩
  | cons r rest ih =>
    intro db
    rcases hc : createMatch db offer r with e | p
    · rw [matchOfferAux_skip hc]
      exact ih db
    · obtain ⟨db1, m⟩ := p
      rw [matchOfferAux_cons_ok hc]
      obtain ⟨h1, h2, h3, h4⟩ := ih db1
      obtain ⟨g1, g2, g3, g4⟩ := createMatch_preserves hc
      exact ⟨h1.trans g1, h2.trans g2, h3.trans g3, h4.trans g4⟩

theorem matchRequestAux_preserves (request : AvailabilityRequest)
    (cands : List AvailabilityOffer) : ∀ db : DB,
    (matchRequestAux request db cands).1.offers = db.offers ∧
    (matchRequestAux request db cands).1.requests = db.requests ∧
    (matchRequestAux request db cands).1.nextOfferId = db.nextOfferId ∧
    (matchRequestAux request db cands).1.nextRequestId = db.nextRequestId := by
  induction cands with
  | nil => intro db; exact ⟨rfl, rfl, rfl, rfl⟩
  | cons o rest ih =>
    intro db
    rcases hc : createMatch db o request with e | p
    · rw [matchRequestAux_skip hc]
      exact ih db
    · obtain ⟨db1, m⟩ := p
      rw [matchRequestAux_cons_ok hc]
      obtain ⟨h1, h2, h3, h4⟩ := ih db1
      obtain ⟨g1, g2, g3, g4⟩ := createMatch_preserves hc
      exact ⟨h1.trans g1, h2.trans g2, h3.trans g3, h4.trans g4⟩

theorem matchOfferAux_pair_other (offer : AvailabilityOffer) {oid rid : Nat}
    (cands : List AvailabilityRequest)
    (h : ∀ r ∈ cands, ¬(offer.id = oid ∧ r.id = rid)) : ∀ db : DB,
    pairMatches (matchOfferAux offer db cands).1 oid rid = pairMatches db oid rid := by
  induction cands with
  | nil => intro db; rfl
  | cons r rest ih =>
    intro db
    rcases hc : createMatch db offer r with e | p
    · rw [matchOfferAux_skip hc]
      exact ih (fun x hx => h x (List.mem_cons_of_mem r hx)) db
    · obtain ⟨db1, m⟩ := p
      rw [matchOfferAux_cons_ok hc]
      rw [ih (fun x hx => h x (List.mem_cons_of_mem r hx)) db1]
      exact pairMatches_createMatch_other hc (h r (List.mem_cons_self r rest))

theorem matchRequestAux_pair_other (request : AvailabilityRequest) {oid rid : Nat}
    (cands : List AvailabilityOffer)
    (h : ∀ o ∈ cands, ¬(o.id = oid ∧ request.id = rid)) : ∀ db : DB,
    pairMatches (matchRequestAux request db cands).1 oid rid = pairMatches db oid rid := by
  induction cands with
  | nil => intro db; rfl
  | cons o rest ih =>
    intro db
    rcases hc : createMatch db o request with e | p
    · rw [matchRequestAux_skip hc]
      exact ih (fun x hx => h x (List.mem_cons_of_mem o hx)) db
    · obtain ⟨db1, m⟩ := p
      rw [matchRequestAux_cons_ok hc]
      rw [ih (fun x hx => h x (List.mem_cons_of_mem o hx)) db1]
      exact pairMatches_createMatch_other hc (h o (List.mem_cons_self o rest))

theorem pairMatches_fresh_offer {db : DB} (hwf : DBWF db) (rid : Nat) :
    pairMatches db db.nextOfferId rid = [] := by
  unfold pairMatches
  rw [List.filter_eq_nil_iff]
  intro m hm
  have hlt := hwf.2.2.1 m hm
  simp only [Bool.and_eq_true, beq_iff_eq, not_and]
  intro heq
  exact absurd heq (Nat.ne_of_lt hlt)

theorem pairMatches_fresh_request {db : DB} (hwf : DBWF db) (oid : Nat) :
    pairMatches db oid db.nextRequestId = [] := by
  unfold pairMatches
  rw [List.filter_eq_nil_iff]
  intro m hm
  have hlt := hwf.2.2.2 m hm
  simp only [Bool.and_eq_true, beq_iff_eq, not_and]
  intro _ heq
  exact absurd heq (Nat.ne_of_lt hlt)

theorem createOffer_ok_elim {now : Ts} {db : DB} {u : UserId} {s e : Ts} {db1 : DB}
    {oid : Nat} (h : createOffer now db u s e = .ok (db1, oid)) :
    oid = db.nextOfferId ∧
    db1 = (matchOffer
      { db with
        offers := db.offers ++ [⟨db.nextOfferId, u, s, e⟩],
        nextOfferId := db.nextOfferId + 1 } ⟨db.nextOfferId, u, s, e⟩).1 := by
  unfold createOffer at h
  split at h
  · cases h
  · split at h
    · cases h
    · split at h
      · cases h
      · simp only [Except.ok.injEq, Prod.mk.injEq] at h
        exact ⟨h.2.symm, h.1.symm⟩

theorem createRequest_ok_elim {now : Ts} {db : DB} {u : UserId} {s e : Ts} {db1 : DB}
    {rid : Nat} (h : createRequest now db u s e = .ok (db1, rid)) :
    rid = db.nextRequestId ∧
    db1 = (matchRequest
      { db with
        requests := db.requests ++ [⟨db.nextRequestId, u, s, e⟩],
        nextRequestId := db.nextRequestId + 1 } ⟨db.nextRequestId, u, s, e⟩).1 := by
  unfold createRequest at h
  split at h
  · cases h
  · split at h
    · cases h
    · split at h
      · cases h
      · simp only [Except.ok.injEq, Prod.mk.injEq] at h
        exact ⟨h.2.symm, h.1.symm⟩

theorem matchRequestAux_pair_target (request : AvailabilityRequest)
    (oT : AvailabilityOffer) (pre post : List AvailabilityOffer) {oid rid : Nat}
    (hoT : oT.id = oid) (hrid : request.id = rid)
    (hpre : ∀ o ∈ pre, o.id ≠ oid) (hpost : ∀ o ∈ post, o.id ≠ oid)
    (db : DB) (hpair : pairMatches db oid rid = [])
    (hof : (db.offers.find? (fun x => x.id == oT.id)).isSome = true)
    (hrf : (db.requests.find? (fun x => x.id == request.id)).isSome = true) :
    ∃ mNew, pairMatches ((matchRequestAux request db (pre ++ oT :: post)).1) oid rid = [mNew] ∧
      mNew.status = .pending ∧ mNew.pending_user_id = some oT.user_id := by
  rw [matchRequestAux_append]
  dsimp only
  have hpres := matchRequestAux_preserves request pre db
  have hpairp : pairMatches (matchRequestAux request db pre).1 oid rid = [] := by
    rw [matchRequestAux_pair_other request pre
      (fun o ho hco => hpre o ho hco.1) db, hpair]
  have hofp : (((matchRequestAux request db pre).1).offers.find?
      (fun x => x.id == oT.id)).isSome = true := by
    rw [hpres.1]
    exact hof
  have hrfp : (((matchRequestAux request db pre).1).requests.find?
      (fun x => x.id == request.id)).isSome = true := by
    rw [hpres.2.1]
    exact hrf
  have hnone : ((matchRequestAux request db pre).1).matchRows.find? (fun m =>
      m.offer_id == oT.id && m.request_id == request.id &&
      (m.status == MatchStatus.pending || m.status == MatchStatus.accepted)) = none := by
    rw [List.find?_eq_none]
    intro x hx
    have hnp := List.filter_eq_nil_iff.mp hpairp x hx
    intro hcontra
    apply hnp
    rw [Bool.and_eq_true] at hcontra
    have hfst := hcontra.1
    rw [hoT, hrid] at hfst
    exact hfst
  obtain ⟨dbn, hcm, hrows⟩ := createMatch_creates oT request hofp hrfp hnone
  rw [matchRequestAux_cons_ok hcm]
  dsimp only
  refine ⟨⟨((matchRequestAux request db pre).1).nextMatchId, oT.id, request.id, .pending,
    some oT.user_id⟩, ?_, rfl, rfl⟩
  rw [matchRequestAux_pair_other request post
    (fun o ho hco => hpost o ho hco.1) dbn]
  unfold pairMatches at hpairp ⊢
  rw [hrows, List.filter_append, hpairp]
  simp [hoT, hrid]

theorem matchOfferAux_pair_target (offer : AvailabilityOffer)
    (rT : AvailabilityRequest) (pre post : List AvailabilityRequest) {oid rid : Nat}
    (hoid : offer.id = oid) (hrT : rT.id = rid)
    (hpre : ∀ r ∈ pre, r.id ≠ rid) (hpost : ∀ r ∈ post, r.id ≠ rid)
    (db : DB) (hpair : pairMatches db oid rid = [])
    (hof : (db.offers.find? (fun x => x.id == offer.id)).isSome = true)
    (hrf : (db.requests.find? (fun x => x.id == rT.id)).isSome = true) :
    ∃ mNew, pairMatches ((matchOfferAux offer db (pre ++ rT :: post)).1) oid rid = [mNew] ∧
      mNew.status = .pending ∧ mNew.pending_user_id = some offer.user_id := by
  rw [matchOfferAux_append]
  dsimp only
  have hpres := matchOfferAux_preserves offer pre db
  have hpairp : pairMatches (matchOfferAux offer db pre).1 oid rid = [] := by
    rw [matchOfferAux_pair_other offer pre
      (fun r hr hco => hpre r hr hco.2) db, hpair]
  have hofp : (((matchOfferAux offer db pre).1).offers.find?
      (fun x => x.id == offer.id)).isSome = true := by
    rw [hpres.1]
    exact hof
  have hrfp : (((matchOfferAux offer db pre).1).requests.find?
      (fun x => x.id == rT.id)).isSome = true := by
    rw [hpres.2.1]
    exact hrf
  have hnone : ((matchOfferAux offer db pre).1).matchRows.find? (fun m =>
      m.offer_id == offer.id && m.request_id == rT.id &&
      (m.status == MatchStatus.pending || m.status == MatchStatus.accepted)) = none := by
    rw [List.find?_eq_none]
    intro x hx
    have hnp := List.filter_eq_nil_iff.mp hpairp x hx
    intro hcontra
    apply hnp
    rw [Bool.and_eq_true] at hcontra
    have hfst := hcontra.1
    rw [hoid, hrT] at hfst
    exact hfst
  obtain ⟨dbn, hcm, hrows⟩ := createMatch_creates offer rT hofp hrfp hnone
  rw [matchOfferAux_cons_ok hcm]
  dsimp only
  refine ⟨⟨((matchOfferAux offer db pre).1).nextMatchId, offer.id, rT.id, .pending,
    some offer.user_id⟩, ?_, rfl, rfl⟩
  rw [matchOfferAux_pair_other offer post
    (fun r hr hco => hpost r hr hco.2) dbn]
  unfold pairMatches at hpairp ⊢
  rw [hrows, List.filter_append, hpairp]
  simp [hoid, hrT]

theorem matchOffer_facts (db0 : DB) (offer : AvailabilityOffer) :
    (matchOffer db0 offer).1.offers = db0.offers ∧
    (matchOffer db0 offer).1.requests = db0.requests ∧
    (matchOffer db0 offer).1.nextOfferId = db0.nextOfferId ∧
    (matchOffer db0 offer).1.nextRequestId = db0.nextRequestId :=
  matchOfferAux_preserves offer (compatibleRequests db0 offer) db0

theorem matchRequest_facts (db0 : DB) (request : AvailabilityRequest) :
    (matchRequest db0 request).1.offers = db0.offers ∧
    (matchRequest db0 request).1.requests = db0.requests ∧
    (matchRequest db0 request).1.nextOfferId = db0.nextOfferId ∧
    (matchRequest db0 request).1.nextRequestId = db0.nextRequestId :=
  matchRequestAux_preserves request (compatibleOffers db0 request) db0

theorem matchOffer_pair_other (db0 : DB) (offer : AvailabilityOffer) {oid rid : Nat}
    (h : ∀ r ∈ db0.requests, ¬(offer.id = oid ∧ r.id = rid)) :
    pairMatches (matchOffer db0 offer).1 oid rid = pairMatches db0 oid rid := by
  unfold matchOffer
  apply matchOfferAux_pair_other
  intro r hr
  exact h r (List.mem_filter.mp hr).1

theorem matchRequest_pair_other (db0 : DB) (request : AvailabilityRequest) {oid rid : Nat}
    (h : ∀ o ∈ db0.offers, ¬(o.id = oid ∧ request.id = rid)) :
    pairMatches (matchRequest db0 request).1 oid rid = pairMatches db0 oid rid := by
  unfold matchRequest
  apply matchRequestAux_pair_other
  intro o ho
  exact h o (List.mem_filter.mp ho).1

theorem matchRequest_target (db0 : DB) (request : AvailabilityRequest)
    (oldOffers : List AvailabilityOffer) (offT : AvailabilityOffer) {oid rid : Nat}
    (hoffers : db0.offers = oldOffers ++ [offT])
    (hoT : offT.id = oid) (hrid : request.id = rid)
    (hold : ∀ o ∈ oldOffers, o.id ≠ oid)
    (hcompat : (decide (offT.start_at ≤ request.start_at) &&
        decide (request.end_at ≤ offT.end_at) && !(offT.user_id == request.user_id)) = true)
    (hpair : pairMatches db0 oid rid = [])
    (hrf : (db0.requests.find? (fun x => x.id == request.id)).isSome = true) :
    ∃ m, pairMatches (matchRequest db0 request).1 oid rid = [m] ∧
      m.status = .pending ∧ m.pending_user_id = some offT.user_id := by
  unfold matchRequest
  have hcand : compatibleOffers db0 request =
      (oldOffers.filter (fun o => decide (o.start_at ≤ request.start_at) &&
        decide (request.end_at ≤ o.end_at) && !(o.user_id == request.user_id))) ++
      offT :: [] := by
    unfold compatibleOffers
    rw [hoffers, List.filter_append]
    simp [hcompat]
  rw [hcand]
  have hof : (db0.offers.find? (fun x => x.id == offT.id)).isSome = true := by
    rw [hoffers, List.find?_isSome]
    exact ⟨offT, by simp, by simp⟩
  exact matchRequestAux_pair_target request offT _ [] hoT hrid
    (fun o ho => hold o (List.mem_filter.mp ho).1)
    (fun o ho => absurd ho (List.not_mem_nil o))
    db0 hpair hof hrf

theorem matchOffer_target (db0 : DB) (offer : AvailabilityOffer)
    (oldRequests : List AvailabilityRequest) (reqT : AvailabilityRequest) {oid rid : Nat}
    (hrequests : db0.requests = oldRequests ++ [reqT])
    (hoid : offer.id = oid) (hrT : reqT.id = rid)
    (hold : ∀ r ∈ oldRequests, r.id ≠ rid)
    (hcompat : (decide (offer.start_at ≤ reqT.start_at) &&
        decide (reqT.end_at ≤ offer.end_at) && !(reqT.user_id == offer.user_id)) = true)
    (hpair : pairMatches db0 oid rid = [])
    (hof : (db0.offers.find? (fun x => x.id == offer.id)).isSome = true) :
    ∃ m, pairMatches (matchOffer db0 offer).1 oid rid = [m] ∧
      m.status = .pending ∧ m.pending_user_id = some offer.user_id := by
  unfold matchOffer
  have hcand : compatibleRequests db0 offer =
      (oldRequests.filter (fun r => decide (offer.start_at ≤ r.start_at) &&
        decide (r.end_at ≤ offer.end_at) && !(r.user_id == offer.user_id))) ++
      reqT :: [] := by
    unfold compatibleRequests
    rw [hrequests, List.filter_append]
    simp [hcompat]
  rw [hcand]
  have hrf : (db0.requests.find? (fun x => x.id == reqT.id)).isSome = true := by
    rw [hrequests, List.find?_isSome]
    exact ⟨reqT, by simp, by simp⟩
  exact matchOfferAux_pair_target offer reqT _ [] hoid hrT
    (fun r hr => hold r (List.mem_filter.mp hr).1)
    (fun r hr => absurd hr (List.not_mem_nil r))
    db0 hpair hof hrf

theorem C1_order_offer_first (now : Ts) (db db1 db2 : DB) (uO uR : UserId)
    (oS oE rS rE : Ts) (oid rid : Nat)
    (hwf : DBWF db) (huser : uO ≠ uR) (hsr : oS ≤ rS) (hre : rE ≤ oE)
    (h1 : createOffer now db uO oS oE = .ok (db1, oid))
    (h2 : createRequest now db1 uR rS rE = .ok (db2, rid)) :
    ∃ m, pairMatches db2 oid rid = [m] ∧ m.status = .pending ∧
      m.pending_user_id = some uO := by
  obtain ⟨hoid, hdb1⟩ := createOffer_ok_elim h1
  obtain ⟨hrid, hdb2⟩ := createRequest_ok_elim h2
  subst hoid
  subst hdb1
  subst hrid
  subst hdb2
  have hbeq : (uO == uR) = false := by simp [huser]
  have hNR := (matchOffer_facts
    { db with
      offers := db.offers ++ [⟨db.nextOfferId, uO, oS, oE⟩],
      nextOfferId := db.nextOfferId + 1 } ⟨db.nextOfferId, uO, oS, oE⟩).2.2.2
  rw [hNR]
  have hOffers1 : (matchOffer
      { db with
        offers := db.offers ++ [⟨db.nextOfferId, uO, oS, oE⟩],
        nextOfferId := db.nextOfferId + 1 } ⟨db.nextOfferId, uO, oS, oE⟩).1.offers =
      db.offers ++ [⟨db.nextOfferId, uO, oS, oE⟩] :=
    (matchOffer_facts _ _).1
  have hpair1 : pairMatches (matchOffer
      { db with
        offers := db.offers ++ [⟨db.nextOfferId, uO, oS, oE⟩],
        nextOfferId := db.nextOfferId + 1 } ⟨db.nextOfferId, uO, oS, oE⟩).1
      db.nextOfferId db.nextRequestId = [] := by
    have hother : ∀ r ∈ ({ db with
        offers := db.offers ++ [⟨db.nextOfferId, uO, oS, oE⟩],
        nextOfferId := db.nextOfferId + 1 } : DB).requests,
        ¬((⟨db.nextOfferId, uO, oS, oE⟩ : AvailabilityOffer).id = db.nextOfferId ∧
          r.id = db.nextRequestId) := fun r hr hco =>
      absurd hco.2 (Nat.ne_of_lt (hwf.2.1 r hr))
    rw [matchOffer_pair_other _ _ hother]
    exact pairMatches_fresh_offer hwf db.nextRequestId
  exact matchRequest_target _ ⟨db.nextRequestId, uR, rS, rE⟩ db.offers
    ⟨db.nextOfferId, uO, oS, oE⟩ hOffers1 rfl rfl
    (fun o ho => Nat.ne_of_lt (hwf.1 o ho))
    (by simp [hsr, hre, hbeq])
    hpair1
    (by rw [List.find?_isSome]
        exact ⟨⟨db.nextRequestId, uR, rS, rE⟩, by simp, by simp⟩)

theorem C1_order_request_first (now : Ts) (db db1 db2 : DB) (uO uR : UserId)
    (oS oE rS rE : Ts) (oid rid : Nat)
    (hwf : DBWF db) (huser : uO ≠ uR) (hsr : oS ≤ rS) (hre : rE ≤ oE)
    (h1 : createRequest now db uR rS rE = .ok (db1, rid))
    (h2 : createOffer now db1 uO oS oE = .ok (db2, oid)) :
    ∃ m, pairMatches db2 oid rid = [m] ∧ m.status = .pending ∧
      m.pending_user_id = some uO := by
  obtain ⟨hrid, hdb1⟩ := createRequest_ok_elim h1
  obtain ⟨hoid, hdb2⟩ := createOffer_ok_elim h2
  subst hrid
  subst hdb1
  subst hoid
  subst hdb2
  have hbeq : (uR == uO) = false := by simp [Ne.symm huser]
  have hNO := (matchRequest_facts
    { db with
      requests := db.requests ++ [⟨db.nextRequestId, uR, rS, rE⟩],
      nextRequestId := db.nextRequestId + 1 } ⟨db.nextRequestId, uR, rS, rE⟩).2.2.1
  rw [hNO]
  have hReq1 : (matchRequest
      { db with
        requests := db.requests ++ [⟨db.nextRequestId, uR, rS, rE⟩],
        nextRequestId := db.nextRequestId + 1 } ⟨db.nextRequestId, uR, rS, rE⟩).1.requests =
      db.requests ++ [⟨db.nextRequestId, uR, rS, rE⟩] :=
    (matchRequest_facts _ _).2.1
  have hpair1 : pairMatches (matchRequest
      { db with
        requests := db.requests ++ [⟨db.nextRequestId, uR, rS, rE⟩],
        nextRequestId := db.nextRequestId + 1 } ⟨db.nextRequestId, uR, rS, rE⟩).1
      db.nextOfferId db.nextRequestId = [] := by
    have hother : ∀ o ∈ ({ db with
        requests := db.requests ++ [⟨db.nextRequestId, uR, rS, rE⟩],
        nextRequestId := db.nextRequestId + 1 } : DB).offers,
        ¬(o.id = db.nextOfferId ∧
          (⟨db.nextRequestId, uR, rS, rE⟩ : AvailabilityRequest).id = db.nextRequestId) :=
      fun o ho hco => absurd hco.1 (Nat.ne_of_lt (hwf.1 o ho))
    rw [matchRequest_pair_other _ _ hother]
    exact pairMatches_fresh_offer hwf db.nextRequestId
  exact matchOffer_target _ ⟨db.nextOfferId, uO, oS, oE⟩ db.requests
    ⟨db.nextRequestId, uR, rS, rE⟩ hReq1 rfl rfl
    (fun r hr => Nat.ne_of_lt (hwf.2.1 r hr))
    (by simp [hsr, hre, hbeq])
    hpair1
    (by rw [List.find?_isSome]
        exact ⟨⟨db.nextOfferId, uO, oS, oE⟩, by simp, by simp⟩)

theorem createMatch_idempotent (db : DB) (o : AvailabilityOffer) (r : AvailabilityRequest)
    (m₀ : Match)
    (hof : (db.offers.find? (fun x => x.id == o.id)).isSome = true)
    (hrf : (db.requests.find? (fun x => x.id == r.id)).isSome = true)
    (hex : db.matchRows.find? (fun m => m.offer_id == o.id && m.request_id == r.id &&
      (m.status == MatchStatus.pending || m.status == MatchStatus.accepted)) = some m₀) :
    createMatch db o r = .ok (db, m₀) := by
  obtain ⟨lo, hlo⟩ := Option.isSome_iff_exists.mp hof
  obtain ⟨lr, hlr⟩ := Option.isSome_iff_exists.mp hrf
  unfold createMatch
  rw [hlo, hlr, hex]

/-! ## C1 -/

/-- **C1**: for an Offer and a Request with the request window contained in
the offer window and distinct owners, creating both rows (in either order,
each creation running the matching engine over a well-formed store) leaves
exactly one match for that (offer, request) pair, and it is PENDING with the
offer owner as pending user; and the match-creation protocol, invoked when a
non-terminal match for the pair already exists (both rows still present),
returns that existing match without touching the store. -/
theorem C1_unique_pending_match :
    (∀ (now : Ts) (db db1 db2 : DB) (uO uR : UserId) (oS oE rS rE : Ts) (oid rid : Nat),
       DBWF db → uO ≠ uR → oS ≤ rS → rE ≤ oE →
       createOffer now db uO oS oE = .ok (db1, oid) →
       createRequest now db1 uR rS rE = .ok (db2, rid) →
       ∃ m, pairMatches db2 oid rid = [m] ∧ m.status = .pending ∧
         m.pending_user_id = some uO) ∧
    (∀ (now : Ts) (db db1 db2 : DB) (uO uR : UserId) (oS oE rS rE : Ts) (oid rid : Nat),
       DBWF db → uO ≠ uR → oS ≤ rS → rE ≤ oE →
       createRequest now db uR rS rE = .ok (db1, rid) →
       createOffer now db1 uO oS oE = .ok (db2, oid) →
       ∃ m, pairMatches db2 oid rid = [m] ∧ m.status = .pending ∧
         m.pending_user_id = some uO) ∧
    (∀ (db : DB) (o : AvailabilityOffer) (r : AvailabilityRequest) (m₀ : Match),
       (db.offers.find? (fun x => x.id == o.id)).isSome = true →
       (db.requests.find? (fun x => x.id == r.id)).isSome = true →
       db.matchRows.find? (fun m => m.offer_id == o.id && m.request_id == r.id &&
         (m.status == MatchStatus.pending || m.status == MatchStatus.accepted)) = some m₀ →
       createMatch db o r = .ok (db, m₀)) := by
  refine ⟨?_, ?_, ?_⟩
  · intro now db db1 db2 uO uR oS oE rS rE oid rid hwf huser hsr hre h1 h2
    exact C1_order_offer_first now db db1 db2 uO uR oS oE rS rE oid rid
      hwf huser hsr hre h1 h2
  · intro now db db1 db2 uO uR oS oE rS rE oid rid hwf huser hsr hre h1 h2
    exact C1_order_request_first now db db1 db2 uO uR oS oE rS rE oid rid
      hwf huser hsr hre h1 h2
  · intro db o r m₀ hof hrf hex
    exact createMatch_idempotent db o r m₀ hof hrf hex

/-- Witness for C1 on the empty store: Alice's offer [1,4] and Bob's request
[2,3], created in either order, end with exactly one pending match awaiting
Alice; and `createMatch` on a pair that already has a pending match returns
it unchanged. -/
theorem C1_witness :
    (∃ m, pairMatches
        (okDB (createRequest 0 (okDB (createOffer 0 DB.empty "alice" 1 4)) "bob" 2 3)) 0 0 =
        [m] ∧ m.status = .pending ∧ m.pending_user_id = some "alice") ∧
    (∃ m, pairMatches
        (okDB (createOffer 0 (okDB (createRequest 0 DB.empty "bob" 2 3)) "alice" 1 4)) 0 0 =
        [m] ∧ m.status = .pending ∧ m.pending_user_id = some "alice") ∧
    createMatch dbPend ⟨0, "alice", 1, 4⟩ ⟨0, "bob", 2, 3⟩ =
      .ok (dbPend, ⟨0, 0, 0, MatchStatus.pending, some "alice"⟩) := by
  refine ⟨?_, ?_, ?_⟩
  · exact C1_unique_pending_match.1 0 DB.empty
      (okDB (createOffer 0 DB.empty "alice" 1 4))
      (okDB (createRequest 0 (okDB (createOffer 0 DB.empty "alice" 1 4)) "bob" 2 3))
      "alice" "bob" 1 4 2 3 0 0
      ⟨fun o ho => absurd ho (List.not_mem_nil o), fun r hr => absurd hr (List.not_mem_nil r),
        fun m hm => absurd hm (List.not_mem_nil m), fun m hm => absurd hm (List.not_mem_nil m)⟩
      (by decide) (by decide) (by decide) rfl rfl
  · exact C1_unique_pending_match.2.1 0 DB.empty
      (okDB (createRequest 0 DB.empty "bob" 2 3))
      (okDB (createOffer 0 (okDB (createRequest 0 DB.empty "bob" 2 3)) "alice" 1 4))
      "alice" "bob" 1 4 2 3 0 0
      ⟨fun o ho => absurd ho (List.not_mem_nil o), fun r hr => absurd hr (List.not_mem_nil r),
        fun m hm => absurd hm (List.not_mem_nil m), fun m hm => absurd hm (List.not_mem_nil m)⟩
      (by decide) (by decide) (by decide) rfl rfl
  · exact C1_unique_pending_match.2.2 dbPend ⟨0, "alice", 1, 4⟩ ⟨0, "bob", 2, 3⟩
      ⟨0, 0, 0, MatchStatus.pending, some "alice"⟩ (by decide) (by decide) (by decide)

end Regami
